import Mathlib

/-!
Verification of the postal_go client library (src/client.go) against its
natural-language specification.

The Go source is shallowly embedded below:

* `textproto.MIMEHeader` (a Go map from canonicalized header name to a list
  of values) is modelled as an ordered association list `MIMEHeader`; `Set`
  replaces the values stored under the canonicalized key, exactly as
  `textproto.MIMEHeader.Set` does.
* Byte slices are modelled as `List Nat` (each entry a byte value; the
  base64 encoder reduces entries mod 256 exactly where the machine byte
  width matters).
* `io.Reader` arguments that the code reads to completion are modelled as
  the result of that read: `Except String (List Nat)` (an `io.Copy` /
  `os.Open` failure or the full content).
* The external collaborators named by the spec — the MIME-encoding
  capability (`smtppool.Email.Bytes`), the HTTP transport
  (`http.Client.Do` plus `io.ReadAll`), the filesystem and the
  extension-to-MIME-type lookup (`mime.TypeByExtension`) — are parameters
  of the embedded operations.
* Go functions returning `(T, error)` are modelled by explicit result
  structures carrying both components, so that the value part of an error
  return stays observable.
* `SendMessage` additionally returns a `SendTrace` recording the HTTP
  requests issued and the response bodies handed to `json.Unmarshal`, so
  that "exactly one POST" and "no JSON parsing is attempted" are stated
  directly.
* `encoding/json`'s `Unmarshal` into the response struct is modelled by an
  executable JSON parser and decoder (`unmarshalResponse`) reproducing the
  grammar and the struct decoding rules the response types exercise.
-/

/-! ## textproto.MIMEHeader -/

/-- A Go `textproto.MIMEHeader` (`map[string][]string`), modelled as an
ordered association list from canonicalized header name to values. -/
abbrev MIMEHeader : Type := List (String × List String)

/-- Character class accepted by `textproto.validHeaderFieldByte`: digits,
letters, and the specials of an RFC 7230 token (codes are used for the
special characters to keep the literal readable). -/
def validHeaderFieldChar (c : Char) : Bool :=
  ('0' ≤ c && c ≤ '9') || ('a' ≤ c && c ≤ 'z') || ('A' ≤ c && c ≤ 'Z') ||
    (c.toNat ∈ [33, 35, 36, 37, 38, 39, 42, 43, 45, 46, 94, 95, 96, 124, 126])

/-- The canonicalization loop of `textproto.CanonicalMIMEHeaderKey`:
uppercase the first letter and every letter following a hyphen, lowercase
the rest. -/
def canonLoop : Bool → List Char → List Char
  | _, [] => []
  | upper, c :: rest =>
    let c' :=
      if upper && 'a' ≤ c && c ≤ 'z' then Char.ofNat (c.toNat - 32)
      else if !upper && 'A' ≤ c && c ≤ 'Z' then Char.ofNat (c.toNat + 32)
      else c
    c' :: canonLoop (c' = '-') rest

/-- `textproto.CanonicalMIMEHeaderKey`: canonicalize a header key, or
return it unchanged if it contains a character not allowed in a header
field name. -/
def canonicalMIMEHeaderKey (s : String) : String :=
  if s.data.all validHeaderFieldChar then ⟨canonLoop true s.data⟩ else s

/-- Replace the values stored under key `ck` (assumed canonical) by the
single value `v`; a Go map assignment `h[ck] = []string(v)`. -/
def MIMEHeader.setCanon : MIMEHeader → String → String → MIMEHeader
  | [], ck, v => [(ck, [v])]
  | (k₀, vs₀) :: rest, ck, v =>
    if k₀ = ck then (ck, [v]) :: rest else (k₀, vs₀) :: MIMEHeader.setCanon rest ck v

/-- `textproto.MIMEHeader.Set`: canonicalize the key, then replace the
values stored under it by the single given value. -/
def MIMEHeader.set (h : MIMEHeader) (key value : String) : MIMEHeader :=
  h.setCanon (canonicalMIMEHeaderKey key) value

/-- Lookup by already-canonical key. -/
def MIMEHeader.getCanon : MIMEHeader → String → List String
  | [], _ => []
  | (k₀, vs₀) :: rest, ck => if k₀ = ck then vs₀ else MIMEHeader.getCanon rest ck

/-- `textproto.MIMEHeader.Values`-style lookup: canonicalize the key and
return the stored values (empty if absent). -/
def MIMEHeader.get (h : MIMEHeader) (key : String) : List String :=
  h.getCanon (canonicalMIMEHeaderKey key)

/-! ## Constants from client.go -/

def HdrContentType : String := "Content-Type"
def HdrContentTransferEncoding : String := "Content-Transfer-Encoding"
def HdrContentDisposition : String := "Content-Disposition"
def ContentTypeOctetStream : String := "application/octet-stream"
def HdrContentID : String := "Content-ID"
def contentEncBase64 : String := "base64"

/-! ## Message model -/

/-- `attachment` struct from client.go. -/
structure attachment where
  Filename : String
  Header : MIMEHeader
  Content : List Nat
  HTMLRelated : Bool
deriving DecidableEq

/-- `Message` struct from client.go (the email which needs to be sent). -/
structure Message where
  To : List String
  From : String
  Sender : String
  Subject : String
  ReplyTo : List String
  Cc : List String
  Bcc : List String
  PlainBody : String
  HTMLBody : String
  Headers : MIMEHeader
  attachments : List attachment
deriving DecidableEq

/-- Result of a Go method `func (m *Message) f(...) error`: `ret` is the
returned error (`none` = nil) and `msg` is the post-state of the receiver.
The error value is the only value such a method returns to its caller. -/
structure AttachResult where
  ret : Option String
  msg : Message
deriving DecidableEq

/-- The nested `range` loops at the end of `Attach`: for every key of the
caller-supplied headers, `Set` each of its values in order. -/
def setAll (h : MIMEHeader) (k : String) : List String → MIMEHeader
  | [] => h
  | v :: vs => setAll (h.set k v) k vs

def mergeHeaders (h : MIMEHeader) : List (String × List String) → MIMEHeader
  | [] => h
  | (k, vs) :: rest => mergeHeaders (setAll h k vs) rest

/-- `Message.Attach` from client.go. `r` is the result of reading the
supplied `io.Reader` to completion (`io.Copy` into the buffer); `headers`
is the optional extra header mapping (`nil` = `[]`). -/
def Message.Attach (m : Message) (r : Except String (List Nat))
    (filename contentType : String) (headers : List (String × List String)) :
    AttachResult :=
  match r with
  | .error err => ⟨some err, m⟩
  | .ok content =>
    let h0 : MIMEHeader := []
    let h1 :=
      if contentType ≠ "" then h0.set HdrContentType contentType
      else h0.set HdrContentType ContentTypeOctetStream
    let h2 := h1.set HdrContentDisposition ("attachment;\r\n filename=\"" ++ filename ++ "\"")
    let h3 := h2.set HdrContentID ("<" ++ filename ++ ">")
    let h4 := h3.set HdrContentTransferEncoding contentEncBase64
    let h5 := mergeHeaders h4 headers
    let att : attachment :=
      { Filename := filename, Header := h5, Content := content, HTMLRelated := false }
    ⟨none, { m with attachments := m.attachments ++ [att] }⟩

/-! ## path/filepath helpers (Unix separator) -/

/-- `filepath.Base`: strip trailing slashes, then keep everything after the
last slash; empty path gives ".", all-slash path gives "/". -/
def pathBase (path : String) : String :=
  if path = "" then "."
  else
    let stripped := (path.data.reverse.dropWhile (fun c => c = '/')).reverse
    let base := (stripped.reverse.takeWhile (fun c => c ≠ '/')).reverse
    if base = [] then "/" else ⟨base⟩

/-- `filepath.Ext`: the suffix of the final path element beginning at its
last dot, or "" if the final element has no dot. -/
def pathExt (path : String) : String :=
  let rev := path.data.reverse.takeWhile (fun c => c ≠ '/')
  if rev.any (fun c => c = '.') then ⟨'.' :: (rev.takeWhile (fun c => c ≠ '.')).reverse⟩
  else ""

/-- `Message.AttachFile` from client.go. `fs` is the filesystem capability:
the full content of the file at a path, or the open/read error.
`typeByExt` is the `mime.TypeByExtension` lookup capability (empty string
for an unknown extension). On open failure the error is returned before
`Attach` is ever called, so the message is unchanged. -/
def Message.AttachFile (fs : String → Except String (List Nat))
    (typeByExt : String → String) (m : Message) (filename : String) : AttachResult :=
  match fs filename with
  | .error err => ⟨some err, m⟩
  | .ok content =>
    let ct := typeByExt (pathExt filename)
    let basename := pathBase filename
    m.Attach (.ok content) basename ct []

/-! ## base64.RawStdEncoding -/

/-- The standard base64 alphabet of `encoding/base64.StdEncoding`. -/
def b64Alphabet : List Char :=
  "ABCDEFGHIJKLMNOPQRSTUVWXYZabcdefghijklmnopqrstuvwxyz0123456789+/".data

def b64char (n : Nat) : Char := b64Alphabet.getD n 'A'

/-- `base64.RawStdEncoding.EncodeToString` over byte values: encode in
3-byte groups, emitting 2 or 3 characters for a final group of 1 or 2
bytes and no padding. Inputs are reduced mod 256 where the byte width
matters. -/
def b64Encode : List Nat → List Char
  | [] => []
  | [b1] =>
    [b64char (b1 % 256 / 4), b64char (b1 % 256 % 4 * 16)]
  | [b1, b2] =>
    [b64char (b1 % 256 / 4), b64char (b1 % 256 % 4 * 16 + b2 % 256 / 16),
      b64char (b2 % 256 % 16 * 4)]
  | b1 :: b2 :: b3 :: rest =>
    b64char (b1 % 256 / 4) :: b64char (b1 % 256 % 4 * 16 + b2 % 256 / 16) ::
      b64char (b2 % 256 % 16 * 4 + b3 % 256 / 64) :: b64char (b3 % 256 % 64) ::
      b64Encode rest

def base64RawStd (bs : List Nat) : String := ⟨b64Encode bs⟩

/-! ## Request/response data model -/

/-- `ResponseMessage` struct (JSON keys `id`, `token`); `int64` is
modelled as `Int`. -/
structure ResponseMessage where
  ID : Int
  Token : String
deriving DecidableEq

/-- `Response` struct (JSON keys `message_id`, `messages`); the
`map[string]ResponseMessage` is modelled as an association list in the
order the JSON object listed the keys. -/
structure Response where
  MessageID : String
  Messages : List (String × ResponseMessage)
deriving DecidableEq

/-- The zero `Response` value (`Response\x7b\x7d` in Go: empty MessageID,
nil map). -/
def zeroResponse : Response := ⟨"", []⟩

/-- `request` struct: the JSON envelope sent to the relay, with keys
`mail_from` (From), `rcpt_to` (To), `data` (Data) and `bounce` (Bounce). -/
structure request where
  From : String
  To : List String
  Data : String
  Bounce : Bool
deriving DecidableEq

/-- `response` struct: the JSON envelope received from the relay, with
keys `status`, `time` and `data`. `Time` is a `float64` in Go; its value
is never consumed, so it is kept as the raw JSON numeral text. -/
structure response where
  Status : String
  Time : String
  Data : Response
deriving DecidableEq

/-! ## smtppool.Email (external MIME-encoding capability input shape) -/

/-- The attachment shape of the `smtppool` capability. -/
structure SmtpAttachment where
  Filename : String
  Header : MIMEHeader
  Content : List Nat
  HTMLRelated : Bool
deriving DecidableEq

/-- The `smtppool.Email` shape that `SendMessage` fills in field by
field. -/
structure Email where
  ReplyTo : List String
  From : String
  To : List String
  Bcc : List String
  Cc : List String
  Subject : String
  Text : String
  HTML : String
  Sender : String
  Headers : MIMEHeader
  Attachments : List SmtpAttachment
deriving DecidableEq

/-- The `smtppool.Email` literal built inside `SendMessage`, including the
field-for-field translation of the message's attachments. -/
def toEmail (msg : Message) : Email :=
  { ReplyTo := msg.ReplyTo
    From := msg.From
    To := msg.To
    Bcc := msg.Bcc
    Cc := msg.Cc
    Subject := msg.Subject
    Text := msg.PlainBody
    HTML := msg.HTMLBody
    Sender := msg.Sender
    Headers := msg.Headers
    Attachments := msg.attachments.map
      (fun ac => ⟨ac.Filename, ac.Header, ac.Content, ac.HTMLRelated⟩) }

/-! ## HTTP exchange model -/

/-- One HTTP request as built by `SendMessage`: method, URL, the headers
added via `req.Header.Add` in order, and the JSON body (kept in its
structured form; `json.Marshal` of the `request` struct is injective and
cannot fail for this shape). -/
structure HttpRequest where
  method : String
  url : String
  headers : List (String × String)
  body : request
deriving DecidableEq

/-- Outcome of one HTTP exchange, covering the three observation points of
the code: `http.Client.Do` fails; `Do` succeeds but `io.ReadAll` on the
body fails; or a status code and a fully read body are obtained. -/
inductive HttpOutcome where
  | doError (e : String)
  | readError (status : Nat) (e : String)
  | ok (status : Nat) (body : String)
deriving DecidableEq

/-- The errors `SendMessage` can return, one constructor per
`fmt.Errorf` site in client.go, each carrying what that site formats in. -/
inductive SendError where
  | encodingError (cause : String)
  | transportError (cause : String)
  | readBodyError (cause : String)
  | relayError (status : Nat) (body : String)
  | decodingError (cause : String)
deriving DecidableEq

/-- The message text each `fmt.Errorf` site produces. -/
def SendError.message : SendError → String
  | .encodingError cause => "error converting email to rfc 2882 message: " ++ cause
  | .transportError cause => "error sending request to postal: " ++ cause
  | .readBodyError cause => "error reading body from postal response: " ++ cause
  | .relayError status body =>
    "error sending message to postal, status code: " ++ toString status ++ ", error: " ++ body
  | .decodingError cause => "error unmarshalling json from postal response: " ++ cause

/-- `strings.TrimSuffix`: if `suf` ends `s`, drop it, else return `s`
unchanged. -/
def trimSuffix (s suf : String) : String :=
  if suf.data.isSuffixOf s.data then ⟨s.data.take (s.data.length - suf.data.length)⟩ else s

/-- `ApiClient` struct: base URI and token (the HTTP client is passed to
`sendMessage` as the transport capability). -/
structure ApiClient where
  baseURI : String
  token : String
deriving DecidableEq

/-- The request `SendMessage` builds for a raw document `rawMsg`:
`POST (TrimSuffix baseURI "/")/api/v1/send/raw` with the two added
headers, and the marshalled `request` struct with the unpadded base64 of
the raw document and `bounce` false. -/
def buildRequest (a : ApiClient) (msg : Message) (rawMsg : List Nat) : HttpRequest :=
  { method := "POST"
    url := trimSuffix a.baseURI "/" ++ "/api/v1/send/raw"
    headers := [("X-Server-API-Key", a.token), ("Content-Type", "application/json")]
    body := { From := msg.From, To := msg.To, Data := base64RawStd rawMsg, Bounce := false } }

/-! ## encoding/json: Unmarshal into the `response` struct

A JSON value tree, a recursive-descent parser for the JSON grammar
accepted by `encoding/json` (fuelled, with ample fuel at the call site),
and a decoder reproducing the Unmarshal rules exercised by the `response`
struct: unknown object keys are ignored, the last occurrence of a
duplicated key wins, `null` leaves the target's zero value, and a type
mismatch is an error. -/

inductive Json where
  | null
  | bool (b : Bool)
  | num (s : String)
  | str (s : String)
  | arr (xs : List Json)
  | obj (fields : List (String × Json))

def lbraceChar : Char := Char.ofNat 123
def rbraceChar : Char := Char.ofNat 125

/-- Drop the JSON whitespace characters space, tab, newline, return. -/
def skipWs (cs : List Char) : List Char :=
  cs.dropWhile (fun c => c = ' ' || c = '\t' || c = '\n' || c = '\r')

/-- Parse the characters of a JSON string after the opening quote, up to
and consuming the closing quote; handles the single-character escapes
(`\u` escapes are not modelled; no input below uses them) and rejects
raw control characters, as `encoding/json` does. -/
def parseStringChars : List Char → Except String (List Char × List Char)
  | [] => .error "unexpected end of string literal"
  | '"' :: rest => .ok ([], rest)
  | '\\' :: e :: rest => do
    let c ←
      match e with
      | '"' => Except.ok '"'
      | '\\' => Except.ok '\\'
      | '/' => Except.ok '/'
      | 'n' => Except.ok '\n'
      | 't' => Except.ok '\t'
      | 'r' => Except.ok '\r'
      | 'b' => Except.ok (Char.ofNat 8)
      | 'f' => Except.ok (Char.ofNat 12)
      | _ => Except.error "unsupported escape in string literal"
    let (cs, rest') ← parseStringChars rest
    .ok (c :: cs, rest')
  | c :: rest =>
    if c.toNat < 32 then .error "invalid control character in string literal"
    else do
      let (cs, rest') ← parseStringChars rest
      .ok (c :: cs, rest')

/-- Exponent part of a JSON numeral: optional sign, then digits. -/
def parseExpo (acc : List Char) (echar : Char) (cs : List Char) :
    Except String (String × List Char) :=
  let (sign, cs₁) :=
    match cs with
    | '+' :: r => (['+'], r)
    | '-' :: r => (['-'], r)
    | _ => ([], cs)
  let ds := cs₁.takeWhile Char.isDigit
  if ds = [] then .error "invalid number literal"
  else .ok (⟨acc ++ echar :: (sign ++ ds)⟩, cs₁.dropWhile Char.isDigit)

/-- After integer and fraction parts: optional exponent. -/
def parseAfterFrac (acc : List Char) (cs : List Char) : Except String (String × List Char) :=
  match cs with
  | 'e' :: rest => parseExpo acc 'e' rest
  | 'E' :: rest => parseExpo acc 'E' rest
  | _ => .ok (⟨acc⟩, cs)

/-- After the integer part: optional fraction, then optional exponent. -/
def parseAfterInt (acc : List Char) (cs : List Char) : Except String (String × List Char) :=
  match cs with
  | '.' :: rest =>
    let ds := rest.takeWhile Char.isDigit
    if ds = [] then .error "invalid number literal"
    else parseAfterFrac (acc ++ '.' :: ds) (rest.dropWhile Char.isDigit)
  | _ => parseAfterFrac acc cs

/-- A JSON numeral: optional minus, an integer part with no leading zero,
optional fraction and exponent. Returns the raw numeral text. -/
def parseNumber (cs : List Char) : Except String (String × List Char) :=
  let (neg, cs₁) :=
    match cs with
    | '-' :: rest => ((['-'] : List Char), rest)
    | _ => ([], cs)
  match cs₁ with
  | '0' :: rest =>
    match rest with
    | d :: _ =>
      if d.isDigit then .error "invalid number literal"
      else parseAfterInt (neg ++ ['0']) rest
    | [] => parseAfterInt (neg ++ ['0']) []
  | c :: rest =>
    if c.isDigit then
      parseAfterInt (neg ++ c :: rest.takeWhile Char.isDigit) (rest.dropWhile Char.isDigit)
    else .error "invalid number literal"
  | [] => .error "invalid number literal"

mutual

/-- Parse one JSON value (after skipping whitespace). -/
def parseValue : Nat → List Char → Except String (Json × List Char)
  | 0, _ => .error "exceeded maximum nesting depth"
  | fuel + 1, cs =>
    match skipWs cs with
    | [] => .error "unexpected end of JSON input"
    | c :: rest =>
      if c = lbraceChar then
        match skipWs rest with
        | c₂ :: rest₂ =>
          if c₂ = rbraceChar then .ok (.obj [], rest₂)
          else parseObjBody fuel rest []
        | [] => .error "unexpected end of JSON input"
      else if c = '[' then
        match skipWs rest with
        | ']' :: rest₂ => .ok (.arr [], rest₂)
        | _ => parseArrBody fuel rest []
      else if c = '"' then
        match parseStringChars rest with
        | .ok (s, rest₂) => .ok (.str ⟨s⟩, rest₂)
        | .error e => .error e
      else if c = 't' then
        if rest.take 3 = ['r', 'u', 'e'] then .ok (.bool true, rest.drop 3)
        else .error "invalid literal"
      else if c = 'f' then
        if rest.take 4 = ['a', 'l', 's', 'e'] then .ok (.bool false, rest.drop 4)
        else .error "invalid literal"
      else if c = 'n' then
        if rest.take 3 = ['u', 'l', 'l'] then .ok (.null, rest.drop 3)
        else .error "invalid literal"
      else if c = '-' || c.isDigit then
        match parseNumber (c :: rest) with
        | .ok (s, rest₂) => .ok (.num s, rest₂)
        | .error e => .error e
      else .error "invalid character looking for beginning of value"

/-- Members of a JSON object, called when at least one member remains. -/
def parseObjBody : Nat → List Char → List (String × Json) →
    Except String (Json × List Char)
  | 0, _, _ => .error "exceeded maximum nesting depth"
  | fuel + 1, cs, acc =>
    match skipWs cs with
    | '"' :: rest =>
      match parseStringChars rest with
      | .error e => .error e
      | .ok (k, rest₂) =>
        match skipWs rest₂ with
        | ':' :: rest₃ =>
          match parseValue fuel rest₃ with
          | .error e => .error e
          | .ok (v, rest₄) =>
            match skipWs rest₄ with
            | ',' :: rest₅ => parseObjBody fuel rest₅ ((⟨k⟩, v) :: acc)
            | c :: rest₅ =>
              if c = rbraceChar then .ok (.obj ((⟨k⟩, v) :: acc).reverse, rest₅)
              else .error "invalid character after object member"
            | [] => .error "unexpected end of JSON input"
        | _ => .error "expected colon after object key"
    | _ => .error "expected string key in object"

/-- Elements of a JSON array, called when at least one element remains. -/
def parseArrBody : Nat → List Char → List Json → Except String (Json × List Char)
  | 0, _, _ => .error "exceeded maximum nesting depth"
  | fuel + 1, cs, acc =>
    match parseValue fuel cs with
    | .error e => .error e
    | .ok (v, rest) =>
      match skipWs rest with
      | ',' :: rest₂ => parseArrBody fuel rest₂ (v :: acc)
      | ']' :: rest₂ => .ok (.arr (v :: acc).reverse, rest₂)
      | _ => .error "invalid character after array element"

end

/-- Parse a complete JSON document: one value, then only whitespace. -/
def unmarshalJson (s : String) : Except String Json :=
  match parseValue (2 * s.length + 2) s.data with
  | .error e => .error e
  | .ok (j, rest) =>
    if skipWs rest = [] then .ok j
    else .error "invalid character after top-level value"

/-- Last-occurrence object-key lookup (later duplicate keys overwrite
earlier ones during Unmarshal). -/
def jLookup (fields : List (String × Json)) (k : String) : Option Json :=
  (fields.reverse.find? (fun p => p.1 == k)).map Prod.snd

/-- Unmarshal a JSON value into a `string` target. -/
def decodeString : Json → Except String String
  | .str s => .ok s
  | .null => .ok ""
  | _ => .error "cannot unmarshal JSON value into string"

def digitsToNat (ds : List Char) : Nat :=
  ds.foldl (fun n c => n * 10 + (c.toNat - 48)) 0

/-- `strconv`-style integer read of a JSON numeral: only an optional minus
and digits are accepted (so `5.0` or `1e2` fail, as they do for an
`int64` target; int64 overflow is not modelled). -/
def parseGoInt (s : String) : Except String Int :=
  match s.data with
  | '-' :: ds =>
    if ds ≠ [] && ds.all Char.isDigit then .ok (-(digitsToNat ds : Int))
    else .error "cannot unmarshal number into int64"
  | ds =>
    if ds ≠ [] && ds.all Char.isDigit then .ok (digitsToNat ds : Int)
    else .error "cannot unmarshal number into int64"

/-- Unmarshal a JSON value into an `int64` target. -/
def decodeInt : Json → Except String Int
  | .num s => parseGoInt s
  | .null => .ok 0
  | _ => .error "cannot unmarshal JSON value into int64"

/-- Unmarshal a JSON value into a `float64` target, kept as raw numeral
text (its value is never consumed). -/
def decodeNum : Json → Except String String
  | .num s => .ok s
  | .null => .ok ""
  | _ => .error "cannot unmarshal JSON value into float64"

/-- Unmarshal into the `ResponseMessage` struct. -/
def decodeResponseMessage : Json → Except String ResponseMessage
  | .null => .ok ⟨0, ""⟩
  | .obj fs => do
    let id ←
      match jLookup fs "id" with
      | none => pure 0
      | some j => decodeInt j
    let tok ←
      match jLookup fs "token" with
      | none => pure ""
      | some j => decodeString j
    .ok ⟨id, tok⟩
  | _ => .error "cannot unmarshal JSON value into ResponseMessage"

/-- Unmarshal into the `map[string]ResponseMessage` target. -/
def decodeMessages : Json → Except String (List (String × ResponseMessage))
  | .null => .ok []
  | .obj fs => fs.mapM (fun p => do
      let m ← decodeResponseMessage p.2
      pure (p.1, m))
  | _ => .error "cannot unmarshal JSON value into map of ResponseMessage"

/-- Unmarshal into the `Response` struct. -/
def decodeData : Json → Except String Response
  | .null => .ok zeroResponse
  | .obj fs => do
    let mid ←
      match jLookup fs "message_id" with
      | none => pure ""
      | some j => decodeString j
    let msgs ←
      match jLookup fs "messages" with
      | none => pure []
      | some j => decodeMessages j
    .ok ⟨mid, msgs⟩
  | _ => .error "cannot unmarshal JSON value into Response"

/-- Unmarshal into the `response` envelope struct. -/
def decodeGoResponse : Json → Except String response
  | .null => .ok ⟨"", "", zeroResponse⟩
  | .obj fs => do
    let status ←
      match jLookup fs "status" with
      | none => pure ""
      | some j => decodeString j
    let time ←
      match jLookup fs "time" with
      | none => pure ""
      | some j => decodeNum j
    let data ←
      match jLookup fs "data" with
      | none => pure zeroResponse
      | some j => decodeData j
    .ok ⟨status, time, data⟩
  | _ => .error "cannot unmarshal JSON value into response"

/-- `json.Unmarshal(body, &r)` for `r : response`. -/
def unmarshalResponse (s : String) : Except String response :=
  match unmarshalJson s with
  | .error e => .error e
  | .ok j => decodeGoResponse j

/-! ## SendMessage -/

/-- Observable effects of one `SendMessage` call: the HTTP requests handed
to the transport, and the response bodies handed to `json.Unmarshal`. -/
structure SendTrace where
  requests : List HttpRequest
  parsedBodies : List String
deriving DecidableEq

/-- Result of `SendMessage`: the returned `(Response, error)` pair
(`err = none` is a nil error), plus the effect trace. -/
structure SendResult where
  resp : Response
  err : Option SendError
  trace : SendTrace
deriving DecidableEq

/-- `ApiClient.SendMessage` from client.go, parameterized by the
MIME-encoding capability (`smtppool.Email.Bytes`) and the HTTP transport
capability (`http.Client.Do` plus `io.ReadAll`). `json.Marshal` of the
`request` struct and `http.NewRequest` cannot fail for the values built
here, so their error checks are modelled as dead code and the body is
kept in structured form. -/
def sendMessage (a : ApiClient) (encode : Email → Except String (List Nat))
    (transport : HttpRequest → HttpOutcome) (msg : Message) : SendResult :=
  match encode (toEmail msg) with
  | .error err => ⟨zeroResponse, some (.encodingError err), ⟨[], []⟩⟩
  | .ok rawMsg =>
    let req := buildRequest a msg rawMsg
    match transport req with
    | .doError e => ⟨zeroResponse, some (.transportError e), ⟨[req], []⟩⟩
    | .readError _ e => ⟨zeroResponse, some (.readBodyError e), ⟨[req], []⟩⟩
    | .ok status body =>
      if status ≠ 200 then
        ⟨zeroResponse, some (.relayError status body), ⟨[req], []⟩⟩
      else
        match unmarshalResponse body with
        | .error e => ⟨zeroResponse, some (.decodingError e), ⟨[req], [body]⟩⟩
        | .ok r => ⟨r.Data, none, ⟨[req], [body]⟩⟩

/-! ## Derived handles and concrete inputs used by the theorems -/

/-- Substring containment (used to state "the error message contains"). -/
def strContains (s sub : String) : Prop := sub.data <:+: s.data

/-- The header mapping `Attach` builds before merging the caller-supplied
extra headers (a handle on the four `Set` calls; `attach_ok_eq` below
proves it is what `Attach` computes). -/
def attachHeaderStack (filename contentType : String) : MIMEHeader :=
  ((((if contentType ≠ "" then MIMEHeader.set [] HdrContentType contentType
      else MIMEHeader.set [] HdrContentType ContentTypeOctetStream)).set
      HdrContentDisposition ("attachment;\r\n filename=\"" ++ filename ++ "\"")).set
      HdrContentID ("<" ++ filename ++ ">")).set
      HdrContentTransferEncoding contentEncBase64

/-- The attachment a successful `Attach` call appends. -/
def builtAttachment (content : List Nat) (filename contentType : String)
    (extra : List (String × List String)) : attachment :=
  ⟨filename, mergeHeaders (attachHeaderStack filename contentType) extra, content, false⟩

/-- An empty message (all fields zero-valued). -/
def msgEmpty : Message := ⟨[], "", "", "", [], [], [], "", "", [], []⟩

/-- A concrete client. -/
def clientEx : ApiClient := ⟨"http://postal.example/", "tok123"⟩

/-- A concrete message. -/
def msgEx : Message :=
  ⟨["a@b.com"], "f@x.com", "", "Test Email", [], [], [], "Test Email from postal_go", "", [], []⟩

/-- A concrete MIME-encoding capability producing the bytes of "hello". -/
def encodeHello : Email → Except String (List Nat) :=
  fun _ => .ok [104, 101, 108, 108, 111]

/-- A concrete MIME-encoding capability that fails. -/
def encodeFail : Email → Except String (List Nat) :=
  fun _ => .error "smtppool: could not build message"

/-- The success body of the spec's stub-transport example. -/
def okBodyEx : String :=
  "\x7b\"status\":\"ok\",\"time\":0.1,\"data\":\x7b\"message_id\":\"m1\",\"messages\":\x7b\"a@b.com\":\x7b\"id\":5,\"token\":\"t\"\x7d\x7d\x7d\x7d"

/-- A stub transport answering 200 with the example success body. -/
def transport200 : HttpRequest → HttpOutcome := fun _ => .ok 200 okBodyEx

/-- A stub transport answering 200 with a malformed (non-JSON) body. -/
def transportBadBody : HttpRequest → HttpOutcome := fun _ => .ok 200 "not json"

/-- A stub transport answering 422 with a plain-text error body. -/
def transport422 : HttpRequest → HttpOutcome := fun _ => .ok 422 "invalid recipient"

/-- A concrete filesystem with one file, "test/hello.txt", holding "hi". -/
def fsEx : String → Except String (List Nat) :=
  fun p =>
    if p = "test/hello.txt" then .ok [104, 105]
    else .error ("open " ++ p ++ ": no such file or directory")

/-- A concrete extension-to-MIME-type lookup knowing only ".txt". -/
def typeByExtEx : String → String :=
  fun e => if e = ".txt" then "text/plain; charset=utf-8" else ""

/-- The attachment built by a concrete `Attach` call whose extra headers
supply a Content-Type value. -/
def attExtraCT : attachment :=
  ((msgEmpty.Attach (.ok [1, 2]) "a.bin" "" [(HdrContentType, ["text/plain"])]).msg.attachments).headD
    ⟨"", [], [], false⟩

/-- The attachment built by a concrete `Attach` call with filename "a". -/
def attExA : attachment :=
  ((msgEmpty.Attach (.ok []) "a" "" []).msg.attachments).headD ⟨"", [], [], false⟩

/-- The attachment built by a concrete `Attach` call with filename "b". -/
def attExB : attachment :=
  ((msgEmpty.Attach (.ok []) "b" "" []).msg.attachments).headD ⟨"", [], [], false⟩

/-! ## Helper lemmas -/

theorem getCanon_setCanon_self (h : MIMEHeader) (ck v : String) :
    (h.setCanon ck v).getCanon ck = [v] := by
  induction h with
  | nil => simp [MIMEHeader.setCanon, MIMEHeader.getCanon]
  | cons p rest ih =>
    obtain ⟨k₀, vs₀⟩ := p
    by_cases hk : k₀ = ck <;>
      simp [MIMEHeader.setCanon, MIMEHeader.getCanon, hk, ih]

theorem getCanon_setCanon_ne (h : MIMEHeader) (ck ck' v : String) (hne : ck' ≠ ck) :
    (h.setCanon ck v).getCanon ck' = h.getCanon ck' := by
  have hne' : ck ≠ ck' := Ne.symm hne
  induction h with
  | nil => simp [MIMEHeader.setCanon, MIMEHeader.getCanon, hne']
  | cons p rest ih =>
    obtain ⟨k₀, vs₀⟩ := p
    by_cases hk : k₀ = ck
    · subst hk
      simp [MIMEHeader.setCanon, MIMEHeader.getCanon, hne']
    · simp [MIMEHeader.setCanon, MIMEHeader.getCanon, hk, ih]

theorem get_set_self (h : MIMEHeader) (k v : String) :
    (h.set k v).get k = [v] :=
  getCanon_setCanon_self h (canonicalMIMEHeaderKey k) v

theorem getCanon_set_ne (h : MIMEHeader) (k ck' v : String)
    (hne : ck' ≠ canonicalMIMEHeaderKey k) :
    (h.set k v).getCanon ck' = h.getCanon ck' :=
  getCanon_setCanon_ne h (canonicalMIMEHeaderKey k) ck' v hne

theorem getCanon_setAll_ne (vs : List String) (h : MIMEHeader) (k ck : String)
    (hne : ck ≠ canonicalMIMEHeaderKey k) :
    (setAll h k vs).getCanon ck = h.getCanon ck := by
  induction vs generalizing h with
  | nil => rfl
  | cons v vs ih => rw [setAll, ih (h.set k v), getCanon_set_ne h k ck v hne]

theorem getCanon_mergeHeaders_ne (extra : List (String × List String))
    (h : MIMEHeader) (ck : String)
    (hx : ∀ p ∈ extra, ck ≠ canonicalMIMEHeaderKey p.1) :
    (mergeHeaders h extra).getCanon ck = h.getCanon ck := by
  induction extra generalizing h with
  | nil => rfl
  | cons p rest ih =>
    obtain ⟨k, vs⟩ := p
    rw [mergeHeaders, ih (setAll h k vs) (fun q hq => hx q (List.mem_cons_of_mem _ hq)),
      getCanon_setAll_ne vs h k ck (hx ⟨k, vs⟩ (List.mem_cons_self _ _))]

theorem attach_ok_eq (m : Message) (content : List Nat) (filename ct : String)
    (extra : List (String × List String)) :
    m.Attach (.ok content) filename ct extra =
      ⟨none, { m with attachments :=
        m.attachments ++ [builtAttachment content filename ct extra] }⟩ := rfl

theorem attachHeaderStack_cte (filename ct : String) :
    (attachHeaderStack filename ct).get HdrContentTransferEncoding = [contentEncBase64] := by
  unfold attachHeaderStack
  exact get_set_self _ _ _

theorem attachHeaderStack_cid (filename ct : String) :
    (attachHeaderStack filename ct).get HdrContentID = ["<" ++ filename ++ ">"] := by
  unfold attachHeaderStack MIMEHeader.get
  rw [getCanon_set_ne _ _ _ _ (by decide)]
  exact getCanon_setCanon_self _ _ _

theorem attachHeaderStack_cd (filename ct : String) :
    (attachHeaderStack filename ct).get HdrContentDisposition =
      ["attachment;\r\n filename=\"" ++ filename ++ "\""] := by
  unfold attachHeaderStack MIMEHeader.get
  rw [getCanon_set_ne _ _ _ _ (by decide), getCanon_set_ne _ _ _ _ (by decide)]
  exact getCanon_setCanon_self _ _ _

theorem attachHeaderStack_ct (filename ct : String) :
    (attachHeaderStack filename ct).get HdrContentType =
      [if ct = "" then ContentTypeOctetStream else ct] := by
  unfold attachHeaderStack MIMEHeader.get
  rw [getCanon_set_ne _ _ _ _ (by decide), getCanon_set_ne _ _ _ _ (by decide),
    getCanon_set_ne _ _ _ _ (by decide)]
  by_cases h : ct = "" <;>
    simp [h, MIMEHeader.set, getCanon_setCanon_self]

theorem b64char_ne_pad (n : Nat) : b64char n ≠ '=' := by
  unfold b64char
  rcases h : b64Alphabet[n]? with _ | c
  · rw [List.getD_eq_getElem?_getD, h]
    decide
  · rw [List.getD_eq_getElem?_getD, h]
    have hc : c ∈ b64Alphabet := List.getElem?_mem h
    intro he
    rw [Option.getD_some] at he
    subst he
    exact absurd hc (by decide)

theorem b64Encode_no_pad : ∀ bs : List Nat, '=' ∉ b64Encode bs
  | [] => by simp [b64Encode]
  | [b1] => by
    intro hmem
    simp only [b64Encode, List.mem_cons, List.not_mem_nil, or_false] at hmem
    rcases hmem with h | h <;> exact b64char_ne_pad _ h.symm
  | [b1, b2] => by
    intro hmem
    simp only [b64Encode, List.mem_cons, List.not_mem_nil, or_false] at hmem
    rcases hmem with h | h | h <;> exact b64char_ne_pad _ h.symm
  | b1 :: b2 :: b3 :: rest => by
    intro hmem
    simp only [b64Encode, List.mem_cons] at hmem
    rcases hmem with h | h | h | h | h
    · exact b64char_ne_pad _ h.symm
    · exact b64char_ne_pad _ h.symm
    · exact b64char_ne_pad _ h.symm
    · exact b64char_ne_pad _ h.symm
    · exact b64Encode_no_pad rest h

theorem strContains_append_right (a b : String) : strContains (a ++ b) b := by
  unfold strContains
  rw [String.data_append]
  exact (List.suffix_append _ _).isInfix

theorem strContains_append_middle (a b c : String) : strContains (a ++ b ++ c) b := by
  unfold strContains
  rw [String.data_append, String.data_append]
  exact List.infix_append _ _ _

/-! ## Claims -/

/-- C1: For every Message, once the encoding step succeeds, `SendMessage`
performs exactly one HTTP POST, to the base URI with its trailing slash
trimmed followed by /api/v1/send/raw, with the X-Server-API-Key and
Content-Type headers, and a JSON body whose mail_from is the Message's
From, whose rcpt_to is its To list in order, whose data is the unpadded
standard base64 encoding of the raw document, and whose bounce is false. -/
theorem sendMessage_single_post_request
    (a : ApiClient) (encode : Email → Except String (List Nat))
    (transport : HttpRequest → HttpOutcome) (msg : Message) (rawMsg : List Nat)
    (henc : encode (toEmail msg) = .ok rawMsg) :
    (sendMessage a encode transport msg).trace.requests = [buildRequest a msg rawMsg] ∧
    (buildRequest a msg rawMsg).method = "POST" ∧
    (buildRequest a msg rawMsg).url = trimSuffix a.baseURI "/" ++ "/api/v1/send/raw" ∧
    (buildRequest a msg rawMsg).headers =
      [("X-Server-API-Key", a.token), ("Content-Type", "application/json")] ∧
    (buildRequest a msg rawMsg).body =
      { From := msg.From, To := msg.To, Data := base64RawStd rawMsg, Bounce := false } ∧
    '=' ∉ (base64RawStd rawMsg).data := by
  refine ⟨?_, rfl, rfl, rfl, rfl, b64Encode_no_pad rawMsg⟩
  simp only [sendMessage, henc]
  cases htr : transport (buildRequest a msg rawMsg) with
  | doError e => rfl
  | readError s e => rfl
  | ok status body =>
    by_cases hs : status ≠ 200
    · simp only [if_pos hs]
    · simp only [if_neg hs]
      cases hu : unmarshalResponse body <;> rfl

/-- Witness for C1 at a concrete client, message, encoder and transport. -/
theorem sendMessage_single_post_request_witness :
    encodeHello (toEmail msgEx) = .ok [104, 101, 108, 108, 111] ∧
    ((sendMessage clientEx encodeHello transport200 msgEx).trace.requests
        = [buildRequest clientEx msgEx [104, 101, 108, 108, 111]] ∧
      (buildRequest clientEx msgEx [104, 101, 108, 108, 111]).method = "POST" ∧
      (buildRequest clientEx msgEx [104, 101, 108, 108, 111]).url
        = trimSuffix clientEx.baseURI "/" ++ "/api/v1/send/raw" ∧
      (buildRequest clientEx msgEx [104, 101, 108, 108, 111]).headers
        = [("X-Server-API-Key", clientEx.token), ("Content-Type", "application/json")] ∧
      (buildRequest clientEx msgEx [104, 101, 108, 108, 111]).body
        = { From := msgEx.From, To := msgEx.To,
            Data := base64RawStd [104, 101, 108, 108, 111], Bounce := false } ∧
      '=' ∉ (base64RawStd [104, 101, 108, 108, 111]).data) ∧
    (buildRequest clientEx msgEx [104, 101, 108, 108, 111]).url
      = "http://postal.example/api/v1/send/raw" ∧
    base64RawStd [104, 101, 108, 108, 111] = "aGVsbG8" :=
  ⟨rfl, sendMessage_single_post_request clientEx encodeHello transport200 msgEx
      [104, 101, 108, 108, 111] rfl, rfl, rfl⟩

/-- C2: On an HTTP exchange returning status exactly 200, `SendMessage`
hands the body to the JSON decoder; if it decodes as the
status/time/data envelope the `data` field is returned as the Response
with a nil error, and if it does not decode a DecodingError carrying the
cause is returned together with the zero Response (never a silent
zero-valued success). -/
theorem sendMessage_status200_decodes_body
    (a : ApiClient) (encode : Email → Except String (List Nat))
    (transport : HttpRequest → HttpOutcome) (msg : Message) (rawMsg : List Nat)
    (body : String)
    (henc : encode (toEmail msg) = .ok rawMsg)
    (htr : transport (buildRequest a msg rawMsg) = .ok 200 body) :
    (sendMessage a encode transport msg).trace.parsedBodies = [body] ∧
    sendMessage a encode transport msg =
      match unmarshalResponse body with
      | .ok r => ⟨r.Data, none, ⟨[buildRequest a msg rawMsg], [body]⟩⟩
      | .error e =>
        ⟨zeroResponse, some (.decodingError e), ⟨[buildRequest a msg rawMsg], [body]⟩⟩ := by
  have hmain : sendMessage a encode transport msg =
      match unmarshalResponse body with
      | .ok r => ⟨r.Data, none, ⟨[buildRequest a msg rawMsg], [body]⟩⟩
      | .error e =>
        ⟨zeroResponse, some (.decodingError e), ⟨[buildRequest a msg rawMsg], [body]⟩⟩ := by
    simp only [sendMessage, henc, htr]
    rw [if_neg (by decide : ¬ (200 : Nat) ≠ 200)]
    cases hu : unmarshalResponse body with
    | error e => rfl
    | ok r => rfl
  refine ⟨?_, hmain⟩
  rw [hmain]
  cases hu : unmarshalResponse body with
  | error e => rfl
  | ok r => rfl

/-- Witness for C2: the spec's stub-transport examples, one well-formed
200 body decoding to MessageID "m1" with Messages mapping "a@b.com" to
id 5 / token "t", and one malformed 200 body yielding a DecodingError. -/
theorem sendMessage_status200_decodes_body_witness :
    encodeHello (toEmail msgEx) = .ok [104, 101, 108, 108, 111] ∧
    transport200 (buildRequest clientEx msgEx [104, 101, 108, 108, 111]) = .ok 200 okBodyEx ∧
    transportBadBody (buildRequest clientEx msgEx [104, 101, 108, 108, 111])
      = .ok 200 "not json" ∧
    unmarshalResponse okBodyEx = .ok ⟨"ok", "0.1", ⟨"m1", [("a@b.com", ⟨5, "t"⟩)]⟩⟩ ∧
    ((sendMessage clientEx encodeHello transport200 msgEx).trace.parsedBodies = [okBodyEx] ∧
      sendMessage clientEx encodeHello transport200 msgEx =
        match unmarshalResponse okBodyEx with
        | .ok r =>
          ⟨r.Data, none, ⟨[buildRequest clientEx msgEx [104, 101, 108, 108, 111]], [okBodyEx]⟩⟩
        | .error e =>
          ⟨zeroResponse, some (.decodingError e),
            ⟨[buildRequest clientEx msgEx [104, 101, 108, 108, 111]], [okBodyEx]⟩⟩) ∧
    (sendMessage clientEx encodeHello transport200 msgEx).resp
      = ⟨"m1", [("a@b.com", ⟨5, "t"⟩)]⟩ ∧
    ((sendMessage clientEx encodeHello transportBadBody msgEx).trace.parsedBodies
        = ["not json"] ∧
      sendMessage clientEx encodeHello transportBadBody msgEx =
        match unmarshalResponse "not json" with
        | .ok r =>
          ⟨r.Data, none, ⟨[buildRequest clientEx msgEx [104, 101, 108, 108, 111]], ["not json"]⟩⟩
        | .error e =>
          ⟨zeroResponse, some (.decodingError e),
            ⟨[buildRequest clientEx msgEx [104, 101, 108, 108, 111]], ["not json"]⟩⟩) ∧
    (sendMessage clientEx encodeHello transportBadBody msgEx).err
      = some (.decodingError "invalid literal") :=
  ⟨rfl, rfl, rfl, rfl,
    sendMessage_status200_decodes_body clientEx encodeHello transport200 msgEx
      [104, 101, 108, 108, 111] okBodyEx rfl rfl,
    rfl,
    sendMessage_status200_decodes_body clientEx encodeHello transportBadBody msgEx
      [104, 101, 108, 108, 111] "not json" rfl rfl,
    rfl⟩

/-- C3: On an HTTP exchange whose status is not 200, `SendMessage`
returns a RelayError carrying the status code and the raw body verbatim,
its message text contains both the numeric status code and the body, and
the body is never handed to the JSON decoder. -/
theorem sendMessage_non200_relay_error
    (a : ApiClient) (encode : Email → Except String (List Nat))
    (transport : HttpRequest → HttpOutcome) (msg : Message) (rawMsg : List Nat)
    (status : Nat) (body : String)
    (henc : encode (toEmail msg) = .ok rawMsg)
    (htr : transport (buildRequest a msg rawMsg) = .ok status body)
    (hs : status ≠ 200) :
    sendMessage a encode transport msg =
      ⟨zeroResponse, some (.relayError status body), ⟨[buildRequest a msg rawMsg], []⟩⟩ ∧
    strContains ((SendError.relayError status body).message) (toString status) ∧
    strContains ((SendError.relayError status body).message) body := by
  refine ⟨?_, ?_, ?_⟩
  · simp only [sendMessage, henc, htr, if_pos hs]
  · simp only [SendError.message]
    rw [String.append_assoc]
    exact strContains_append_middle _ _ _
  · exact strContains_append_right _ _

/-- Witness for C3 at status 422 with body "invalid recipient". -/
theorem sendMessage_non200_relay_error_witness :
    encodeHello (toEmail msgEx) = .ok [104, 101, 108, 108, 111] ∧
    transport422 (buildRequest clientEx msgEx [104, 101, 108, 108, 111])
      = .ok 422 "invalid recipient" ∧
    (422 : Nat) ≠ 200 ∧
    (sendMessage clientEx encodeHello transport422 msgEx =
      ⟨zeroResponse, some (.relayError 422 "invalid recipient"),
        ⟨[buildRequest clientEx msgEx [104, 101, 108, 108, 111]], []⟩⟩ ∧
      strContains ((SendError.relayError 422 "invalid recipient").message) (toString 422) ∧
      strContains ((SendError.relayError 422 "invalid recipient").message)
        "invalid recipient") ∧
    (SendError.relayError 422 "invalid recipient").message
      = "error sending message to postal, status code: 422, error: invalid recipient" :=
  ⟨rfl, rfl, by decide,
    sendMessage_non200_relay_error clientEx encodeHello transport422 msgEx
      [104, 101, 108, 108, 111] 422 "invalid recipient" rfl rfl (by decide),
    rfl⟩

/-- C7: When the encode-to-raw-document step fails, `SendMessage` returns
an EncodingError wrapping the cause together with the zero Response, and
no HTTP request is built or issued (the request trace is empty). -/
theorem sendMessage_encoding_failure_no_request
    (a : ApiClient) (encode : Email → Except String (List Nat))
    (transport : HttpRequest → HttpOutcome) (msg : Message) (cause : String)
    (henc : encode (toEmail msg) = .error cause) :
    sendMessage a encode transport msg =
      ⟨zeroResponse, some (.encodingError cause), ⟨[], []⟩⟩ ∧
    strContains ((SendError.encodingError cause).message) cause := by
  refine ⟨?_, ?_⟩
  · simp only [sendMessage, henc]
  · exact strContains_append_right _ _

/-- Witness for C7 at a concrete failing encoder. -/
theorem sendMessage_encoding_failure_no_request_witness :
    encodeFail (toEmail msgEx) = .error "smtppool: could not build message" ∧
    (sendMessage clientEx encodeFail transport200 msgEx =
      ⟨zeroResponse, some (.encodingError "smtppool: could not build message"), ⟨[], []⟩⟩ ∧
      strContains ((SendError.encodingError "smtppool: could not build message").message)
        "smtppool: could not build message") :=
  ⟨rfl,
    sendMessage_encoding_failure_no_request clientEx encodeFail transport200 msgEx
      "smtppool: could not build message" rfl⟩

/-- C10: Whenever `SendMessage` returns a non-nil error, the Response
component of the returned pair is the zero-valued Response — no error
path yields a partially populated Response. -/
theorem sendMessage_error_zero_response
    (a : ApiClient) (encode : Email → Except String (List Nat))
    (transport : HttpRequest → HttpOutcome) (msg : Message)
    (herr : (sendMessage a encode transport msg).err ≠ none) :
    (sendMessage a encode transport msg).resp = zeroResponse := by
  rcases henc : encode (toEmail msg) with e | rawMsg
  · simp only [sendMessage, henc]
  · rcases htr : transport (buildRequest a msg rawMsg) with e | ⟨s, e⟩ | ⟨status, body⟩
    · simp only [sendMessage, henc, htr]
    · simp only [sendMessage, henc, htr]
    · by_cases hs : status ≠ 200
      · simp only [sendMessage, henc, htr, if_pos hs]
      · rcases hu : unmarshalResponse body with e | r
        · simp only [sendMessage, henc, htr, if_neg hs, hu]
        · exact absurd
            (by simp only [sendMessage, henc, htr, if_neg hs, hu] :
              (sendMessage a encode transport msg).err = none)
            herr

/-- Witness for C10 at a concrete failing send (encoding failure). -/
theorem sendMessage_error_zero_response_witness :
    (sendMessage clientEx encodeFail transport200 msgEx).err ≠ none ∧
    (sendMessage clientEx encodeFail transport200 msgEx).resp = zeroResponse :=
  ⟨by decide, sendMessage_error_zero_response clientEx encodeFail transport200 msgEx (by decide)⟩

/-- C4: `Attach` gives the built attachment a Content-Type equal to the
supplied value, or application/octet-stream when the supplied value is
empty; a Content-Transfer-Encoding of base64; a Content-ID of the
filename in angle brackets; and a Content-Disposition containing
filename="..." — stated for extra headers that do not name (after
canonicalization) any of those four defaults. -/
theorem attach_default_headers
    (m : Message) (content : List Nat) (filename contentType : String)
    (extra : List (String × List String))
    (hex : ∀ p ∈ extra, canonicalMIMEHeaderKey p.1 ∉
      [canonicalMIMEHeaderKey HdrContentType, canonicalMIMEHeaderKey HdrContentDisposition,
        canonicalMIMEHeaderKey HdrContentID, canonicalMIMEHeaderKey HdrContentTransferEncoding]) :
    ∃ att : attachment,
      (m.Attach (.ok content) filename contentType extra).msg.attachments
          = m.attachments ++ [att] ∧
      att.Header.get HdrContentType =
        [if contentType = "" then ContentTypeOctetStream else contentType] ∧
      att.Header.get HdrContentTransferEncoding = [contentEncBase64] ∧
      att.Header.get HdrContentID = ["<" ++ filename ++ ">"] ∧
      ∃ v, att.Header.get HdrContentDisposition = [v] ∧
        strContains v ("filename=\"" ++ filename ++ "\"") := by
  have hget : ∀ key : String,
      canonicalMIMEHeaderKey key ∈
        [canonicalMIMEHeaderKey HdrContentType, canonicalMIMEHeaderKey HdrContentDisposition,
          canonicalMIMEHeaderKey HdrContentID, canonicalMIMEHeaderKey HdrContentTransferEncoding] →
      (builtAttachment content filename contentType extra).Header.get key
        = (attachHeaderStack filename contentType).get key := by
    intro key hkey
    show (mergeHeaders (attachHeaderStack filename contentType) extra).getCanon
        (canonicalMIMEHeaderKey key) = _
    apply getCanon_mergeHeaders_ne
    intro p hp heq
    exact (hex p hp) (heq ▸ hkey)
  refine ⟨builtAttachment content filename contentType extra, rfl, ?_, ?_, ?_,
    "attachment;\r\n filename=\"" ++ filename ++ "\"", ?_, ?_⟩
  · rw [hget HdrContentType (by decide)]
    exact attachHeaderStack_ct filename contentType
  · rw [hget HdrContentTransferEncoding (by decide)]
    exact attachHeaderStack_cte filename contentType
  · rw [hget HdrContentID (by decide)]
    exact attachHeaderStack_cid filename contentType
  · rw [hget HdrContentDisposition (by decide)]
    exact attachHeaderStack_cd filename contentType
  · unfold strContains
    have h0 : ("attachment;\r\n filename=\"" : String) = "attachment;\r\n " ++ "filename=\"" :=
      rfl
    rw [h0]
    simp only [String.data_append, List.append_assoc]
    exact (List.suffix_append _ _).isInfix

/-- Witness for C4 at a concrete call with empty content type and no
extra headers. -/
theorem attach_default_headers_witness :
    (∀ p ∈ ([] : List (String × List String)), canonicalMIMEHeaderKey p.1 ∉
      [canonicalMIMEHeaderKey HdrContentType, canonicalMIMEHeaderKey HdrContentDisposition,
        canonicalMIMEHeaderKey HdrContentID, canonicalMIMEHeaderKey HdrContentTransferEncoding]) ∧
    (∃ att : attachment,
      (msgEmpty.Attach (.ok [1, 2]) "a.bin" "" []).msg.attachments
          = msgEmpty.attachments ++ [att] ∧
      att.Header.get HdrContentType =
        [if ("" : String) = "" then ContentTypeOctetStream else ""] ∧
      att.Header.get HdrContentTransferEncoding = [contentEncBase64] ∧
      att.Header.get HdrContentID = ["<" ++ "a.bin" ++ ">"] ∧
      ∃ v, att.Header.get HdrContentDisposition = [v] ∧
        strContains v ("filename=\"" ++ "a.bin" ++ "\"")) :=
  ⟨by simp, attach_default_headers msgEmpty [1, 2] "a.bin" "" [] (by simp)⟩

/-- C5 counterexample: a caller-supplied extra header value for
Content-Type replaces the octet-stream default rather than being added
alongside it — after the merge the default value is present nowhere in
the attachment's header mapping. -/
theorem attach_extra_header_replaces_default_cex :
    (msgEmpty.Attach (.ok [1, 2]) "a.bin" "" [(HdrContentType, ["text/plain"])]).msg.attachments
      = [attExtraCT] ∧
    attExtraCT.Header.get HdrContentType = ["text/plain"] ∧
    attExtraCT.Header.all (fun p => !(p.2.contains ContentTypeOctetStream)) = true := by
  refine ⟨rfl, by decide, by decide⟩

/-- C5 as amended: each caller-supplied extra header value is stored with
`Set`, replacing any previously stored values for that (canonicalized)
header name — the supplied value is what the built attachment ends up
with under that name. -/
theorem attach_extra_header_set_replaces
    (m : Message) (content : List Nat) (filename ct k v : String) :
    ∃ att : attachment,
      (m.Attach (.ok content) filename ct [(k, [v])]).msg.attachments
        = m.attachments ++ [att] ∧
      att.Header.get k = [v] := by
  refine ⟨builtAttachment content filename ct [(k, [v])], rfl, ?_⟩
  show ((attachHeaderStack filename ct).set k v).get k = [v]
  exact get_set_self _ _ _

/-- C6 counterexample: the value `Attach` returns to its caller is only
the error component (nil on success), not the built Attachment — two
successful calls that build different attachments return the identical
value, so no reading of the returned value can yield the built
attachment. -/
theorem attach_no_attachment_return_cex :
    (msgEmpty.Attach (.ok []) "a" "" []).ret = none ∧
    (msgEmpty.Attach (.ok []) "b" "" []).ret = none ∧
    attExA ≠ attExB ∧
    ¬ ∃ extract : Option String → attachment,
        extract (msgEmpty.Attach (.ok []) "a" "" []).ret = attExA ∧
        extract (msgEmpty.Attach (.ok []) "b" "" []).ret = attExB := by
  refine ⟨rfl, rfl, by decide, ?_⟩
  rintro ⟨f, h1, h2⟩
  have h1' : f none = attExA := h1
  have h2' : f none = attExB := h2
  exact absurd (h1'.symm.trans h2') (by decide)

/-- C6 as amended: a successful `Attach` returns a nil error and appends
the built Attachment to the Message's attachment sequence; the
Attachment itself is not part of the return value and is observable only
through the message. -/
theorem attach_ok_returns_nil_error
    (m : Message) (content : List Nat) (filename ct : String)
    (extra : List (String × List String)) :
    (m.Attach (.ok content) filename ct extra).ret = none ∧
    (m.Attach (.ok content) filename ct extra).msg.attachments
      = m.attachments ++ [builtAttachment content filename ct extra] :=
  ⟨rfl, rfl⟩

/-- C8: `AttachFile` delegates to `Attach` with no extra headers, a
filename that is the path's final component (directory components
stripped), and the content type produced by the extension lookup on the
path's extension — with the empty lookup result mapped by `Attach` to
application/octet-stream. -/
theorem attachFile_derives_filename_and_type
    (fs : String → Except String (List Nat)) (typeByExt : String → String)
    (m : Message) (path : String) (content : List Nat)
    (hfs : fs path = .ok content) :
    Message.AttachFile fs typeByExt m path
      = m.Attach (.ok content) (pathBase path) (typeByExt (pathExt path)) [] ∧
    ∃ att : attachment,
      (Message.AttachFile fs typeByExt m path).msg.attachments = m.attachments ++ [att] ∧
      att.Filename = pathBase path ∧
      att.Header.get HdrContentType =
        [if typeByExt (pathExt path) = "" then ContentTypeOctetStream
          else typeByExt (pathExt path)] := by
  have hdeleg : Message.AttachFile fs typeByExt m path
      = m.Attach (.ok content) (pathBase path) (typeByExt (pathExt path)) [] := by
    simp only [Message.AttachFile, hfs]
  refine ⟨hdeleg,
    builtAttachment content (pathBase path) (typeByExt (pathExt path)) [], ?_, rfl, ?_⟩
  · rw [hdeleg, attach_ok_eq]
  · show (attachHeaderStack (pathBase path) (typeByExt (pathExt path))).get HdrContentType = _
    exact attachHeaderStack_ct _ _

/-- Witness for C8 at the path "test/hello.txt" of the repository's own
test, whose base name is "hello.txt" and whose extension looks up to
text/plain. -/
theorem attachFile_derives_filename_and_type_witness :
    fsEx "test/hello.txt" = .ok [104, 105] ∧
    (msgEmpty.AttachFile fsEx typeByExtEx "test/hello.txt"
        = msgEmpty.Attach (.ok [104, 105]) (pathBase "test/hello.txt")
            (typeByExtEx (pathExt "test/hello.txt")) [] ∧
      ∃ att : attachment,
        (msgEmpty.AttachFile fsEx typeByExtEx "test/hello.txt").msg.attachments
            = msgEmpty.attachments ++ [att] ∧
        att.Filename = pathBase "test/hello.txt" ∧
        att.Header.get HdrContentType =
          [if typeByExtEx (pathExt "test/hello.txt") = "" then ContentTypeOctetStream
            else typeByExtEx (pathExt "test/hello.txt")]) ∧
    pathBase "test/hello.txt" = "hello.txt" ∧
    pathExt "test/hello.txt" = ".txt" ∧
    typeByExtEx ".txt" = "text/plain; charset=utf-8" ∧
    ((msgEmpty.AttachFile fsEx typeByExtEx "test/hello.txt").msg.attachments.map
        attachment.Filename) = ["hello.txt"] :=
  ⟨rfl,
    attachFile_derives_filename_and_type fsEx typeByExtEx msgEmpty "test/hello.txt"
      [104, 105] rfl,
    by decide, by decide, rfl, by decide⟩

/-- C9: When the path cannot be opened, `AttachFile` returns the open
error and leaves the Message unchanged — in particular no Attachment is
appended. -/
theorem attachFile_open_error_leaves_message
    (fs : String → Except String (List Nat)) (typeByExt : String → String)
    (m : Message) (path e : String)
    (hfs : fs path = .error e) :
    Message.AttachFile fs typeByExt m path = ⟨some e, m⟩ := by
  simp only [Message.AttachFile, hfs]

/-- Witness for C9 at a nonexistent path. -/
theorem attachFile_open_error_leaves_message_witness :
    fsEx "nope.txt" = .error "open nope.txt: no such file or directory" ∧
    msgEmpty.AttachFile fsEx typeByExtEx "nope.txt"
      = ⟨some "open nope.txt: no such file or directory", msgEmpty⟩ ∧
    (msgEmpty.AttachFile fsEx typeByExtEx "nope.txt").msg.attachments = [] :=
  ⟨rfl,
    attachFile_open_error_leaves_message fsEx typeByExtEx msgEmpty "nope.txt"
      "open nope.txt: no such file or directory" rfl,
    rfl⟩
